import Mathlib

/-!
Shallow embedding of `plat/xilinx/zynqmp/pm_service/pm_client.c`: the
APU-side PM client of the ZynqMP platform port.  Pure lookups become Lean
functions; the register-mutating power-transition actions become functions
on an explicit client state (a memory map plus the local GIC interface
flag); the mailbox operations (`pm_ipi_wait`, `pm_ipi_send`,
`pm_ipi_buff_read32`) are given an operational semantics producing the
event trace (lock acquire/release, register reads, buffer writes) of one
execution, driven by an oracle for the values the busy-wait poll observes
and a fuel bound for the unbounded loop.
-/

namespace PmClient

/-- Word width of the memory-mapped registers (uint32_t). -/
def WORD_MOD : Nat := 2 ^ 32

/-- Modelled from the spec: platform header constants (`pm_client.h` and the
headers it includes are not part of the provided sources; only their values
are fixed here, faithful to the spec's description of the channel layout:
request and response regions at fixed offsets, words at a fixed stride). -/
def IPI_APU_MASK : Nat := 0x1

/-- Modelled from the spec: base address of the APU IPI (trigger/observation) registers. -/
def IPI_BASEADDR : Nat := 0xFF300000

/-- Modelled from the spec: base address of the APU message buffer region. -/
def IPI_BUFFER_APU_BASE : Nat := 0xFF990400

/-- Modelled from the spec: offset of the PMU-targeted buffer inside the APU buffer region. -/
def IPI_BUFFER_TARGET_PMU_OFFSET : Nat := 0x1C0

/-- Modelled from the spec: offset of the request region inside the per-target buffer. -/
def IPI_BUFFER_REQ_OFFSET : Nat := 0x0

/-- Modelled from the spec: offset of the response region inside the per-target buffer. -/
def IPI_BUFFER_RESP_OFFSET : Nat := 0x20

/-- Modelled from the spec: offset of the trigger register from the IPI base. -/
def IPI_TRIG_OFFSET : Nat := 0x0

/-- Modelled from the spec: offset of the observation register from the IPI base. -/
def IPI_OBS_OFFSET : Nat := 0x4

/-- Modelled from the spec: the PMU interrupt bit in the trigger/observation registers. -/
def IPI_PMU_PM_INT_MASK : Nat := 0x10000

/-- Modelled from the spec: number of payload argument words of one request. -/
def PAYLOAD_ARG_CNT : Nat := 6

/-- Modelled from the spec: byte stride between consecutive payload words. -/
def PAYLOAD_ARG_SIZE : Nat := 4

/-- Modelled from the spec: sentinel returned by `pm_get_cpuid` when no
registry entry matches (`~0` as a uint32_t). -/
def UNDEFINED_CPUID : Nat := 0xFFFFFFFF

/-- Modelled from the spec: address of the shared APU power-control register. -/
def APU_PWRCTL : Nat := 0xFD5C0090

/-- Modelled from the spec: power-down request bit of core 0 (bit0). -/
def APU_0_PWRCTL_CPUPWRDWNREQ_MASK : Nat := 0x1

/-- Modelled from the spec: power-down request bit of core 1 (bit1). -/
def APU_1_PWRCTL_CPUPWRDWNREQ_MASK : Nat := 0x2

/-- Modelled from the spec: power-down request bit of core 2 (bit2). -/
def APU_2_PWRCTL_CPUPWRDWNREQ_MASK : Nat := 0x4

/-- Modelled from the spec: power-down request bit of core 3 (bit3). -/
def APU_3_PWRCTL_CPUPWRDWNREQ_MASK : Nat := 0x8

/-- Modelled from the spec: node ids of the APU cluster and its four cores
in the global power-domain topology (`enum pm_node_id`). -/
def NODE_APU : Nat := 1

/-- Modelled from the spec: node id of APU core 0. -/
def NODE_APU_0 : Nat := 2

/-- Modelled from the spec: node id of APU core 1. -/
def NODE_APU_1 : Nat := 3

/-- Modelled from the spec: node id of APU core 2. -/
def NODE_APU_2 : Nat := 4

/-- Modelled from the spec: node id of APU core 3. -/
def NODE_APU_3 : Nat := 5

/-- Modelled from the spec: the success return status (`enum pm_ret_status`). -/
def PM_RET_SUCCESS : Nat := 0

/-- Mailbox channel descriptor (`struct pm_ipi`). -/
structure pm_ipi where
  mask : Nat
  base : Nat
  buffer_base : Nat
deriving DecidableEq

/-- Processor descriptor (`struct pm_proc`).  The shared channel is embedded
by value; all four descriptors hold the same channel record. -/
structure pm_proc where
  node_id : Nat
  pwrdn_mask : Nat
  ipi : pm_ipi
deriving DecidableEq

/-- The single APU mailbox channel (`apu_ipi`). -/
def apu_ipi : pm_ipi :=
  { mask := IPI_APU_MASK
    base := IPI_BASEADDR
    buffer_base := IPI_BUFFER_APU_BASE }

/-- Descriptor of APU core 0 (`pm_apu_0_proc`). -/
def pm_apu_0_proc : pm_proc :=
  { node_id := NODE_APU_0
    pwrdn_mask := APU_0_PWRCTL_CPUPWRDWNREQ_MASK
    ipi := apu_ipi }

/-- Descriptor of APU core 1 (`pm_apu_1_proc`). -/
def pm_apu_1_proc : pm_proc :=
  { node_id := NODE_APU_1
    pwrdn_mask := APU_1_PWRCTL_CPUPWRDWNREQ_MASK
    ipi := apu_ipi }

/-- Descriptor of APU core 2 (`pm_apu_2_proc`). -/
def pm_apu_2_proc : pm_proc :=
  { node_id := NODE_APU_2
    pwrdn_mask := APU_2_PWRCTL_CPUPWRDWNREQ_MASK
    ipi := apu_ipi }

/-- Descriptor of APU core 3 (`pm_apu_3_proc`). -/
def pm_apu_3_proc : pm_proc :=
  { node_id := NODE_APU_3
    pwrdn_mask := APU_3_PWRCTL_CPUPWRDWNREQ_MASK
    ipi := apu_ipi }

/-- The processor registry (`pm_procs_all`); order matches cpu ids. -/
def pm_procs_all : List pm_proc :=
  [pm_apu_0_proc, pm_apu_1_proc, pm_apu_2_proc, pm_apu_3_proc]

/-- Embedding of `pm_get_proc`: bounds-checked index into the registry. -/
def pm_get_proc (cpuid : Nat) : Option pm_proc :=
  if cpuid < pm_procs_all.length then pm_procs_all[cpuid]? else none

/-- Embedding of `pm_get_proc_by_node`: first registry entry whose
`node_id` equals `nid`, scanning in index order; NULL becomes `none`. -/
def pm_get_proc_by_node (nid : Nat) : Option pm_proc :=
  pm_procs_all.find? (fun p => p.node_id == nid)

/-- Indexed scan of the registry used by `pm_get_cpuid`, mirroring its
`for` loop: return the index of the first entry whose `node_id` matches,
else the sentinel. -/
def pm_get_cpuid_scan (nid : Nat) : List pm_proc → Nat → Nat
  | [], _ => UNDEFINED_CPUID
  | p :: rest, i =>
    if p.node_id == nid then i else pm_get_cpuid_scan nid rest (i + 1)

/-- Embedding of `pm_get_cpuid`: index of the first registry entry whose
`node_id` equals `nid`, or the sentinel `UNDEFINED_CPUID`. -/
def pm_get_cpuid (nid : Nat) : Nat :=
  pm_get_cpuid_scan nid pm_procs_all 0

/-- Embedding of `subsystem_node`. -/
def subsystem_node : Nat := NODE_APU

/-- Embedding of `primary_proc`: the designated primary descriptor. -/
def primary_proc : pm_proc := pm_apu_0_proc

/-- Client-visible machine state: the memory-mapped register space (each
address holds one 32-bit word) and whether the local GIC cpu interface is
enabled (mutated by `arm_gic_cpuif_setup` / `arm_gic_cpuif_deactivate`). -/
structure ClientState where
  mem : Nat → Nat
  gic_enabled : Bool

/-- Embedding of the register read primitive `pm_read`. -/
def pm_read (m : Nat → Nat) (a : Nat) : Nat := m a

/-- Embedding of the register write primitive `pm_write`; the hardware
register stores the low 32 bits of the written word. -/
def pm_write (m : Nat → Nat) (a v : Nat) : Nat → Nat :=
  fun x => if x = a then v % WORD_MOD else m x

/-- Bitwise complement of a mask within a 32-bit word, the meaning of the C
operator `~` applied to a uint32_t mask. -/
def compl32 (mask : Nat) : Nat := (WORD_MOD - 1) ^^^ mask

/-- Embedding of `pm_client_suspend`: deactivate the local GIC cpu
interface, then set the target's powerdown-request bit in `APU_PWRCTL`. -/
def pm_client_suspend (proc : pm_proc) (s : ClientState) : ClientState :=
  { mem := pm_write s.mem APU_PWRCTL
      (pm_read s.mem APU_PWRCTL ||| proc.pwrdn_mask)
    gic_enabled := false }

/-- Embedding of `pm_client_abort_suspend`: re-enable the local GIC cpu
interface, then clear the primary descriptor's powerdown-request bit. -/
def pm_client_abort_suspend (s : ClientState) : ClientState :=
  { mem := pm_write s.mem APU_PWRCTL
      (pm_read s.mem APU_PWRCTL &&& compl32 primary_proc.pwrdn_mask)
    gic_enabled := true }

/-- Embedding of `pm_client_wakeup`: if the target's node id is registered,
clear its powerdown-request bit; otherwise do nothing. -/
def pm_client_wakeup (proc : pm_proc) (s : ClientState) : ClientState :=
  if UNDEFINED_CPUID ≠ pm_get_cpuid proc.node_id then
    { s with mem := (pm_write s.mem APU_PWRCTL
        (pm_read s.mem APU_PWRCTL &&& compl32 proc.pwrdn_mask)) }
  else s

/-- Observable events of one mailbox-operation execution: acquiring and
releasing `pm_secure_lock`, polling the observation register, reading a
response-buffer word, and writing a buffer or trigger word. -/
inductive MEvent where
  | acquire : MEvent
  | release : MEvent
  | readObs : Nat → MEvent
  | readBuf : Nat → MEvent
  | writeBuf : Nat → Nat → MEvent
deriving DecidableEq

/-- Busy-wait loop of `pm_ipi_wait`: at the k-th iteration the observation
register is read (the oracle `obs` gives the observed word) and the loop
exits when the PMU interrupt bit is clear.  The loop is unbounded in the
source; `fuel` bounds the modelled execution, `none` meaning the loop has
not exited within `fuel` polls.  Returns the trace of poll reads. -/
def pm_ipi_wait_poll (obs : Nat → Nat) (addr : Nat) : Nat → Nat → Option (List MEvent)
  | 0, _ => none
  | fuel + 1, k =>
    if obs k &&& IPI_PMU_PM_INT_MASK = 0 then
      some [MEvent.readObs addr]
    else
      match pm_ipi_wait_poll obs addr fuel (k + 1) with
      | some tr => some (MEvent.readObs addr :: tr)
      | none => none

/-- Embedding of `pm_ipi_wait`: acquire the global lock, busy-poll the
channel's observation register until the PMU interrupt bit clears, release
the lock, return `PM_RET_SUCCESS`.  Yields the event trace and the return
status of a terminating execution, `none` if the loop has not exited
within `fuel` polls. -/
def pm_ipi_wait (proc : pm_proc) (obs : Nat → Nat) (fuel : Nat) :
    Option (List MEvent × Nat) :=
  match pm_ipi_wait_poll obs (proc.ipi.base + IPI_OBS_OFFSET) fuel 0 with
  | some tr => some (MEvent.acquire :: tr ++ [MEvent.release], PM_RET_SUCCESS)
  | none => none

/-- The sequence of buffer writes of `pm_ipi_send`: payload word `i` is
written at `buffer_base + i * PAYLOAD_ARG_SIZE` (the loop increments the
offset by `PAYLOAD_ARG_SIZE` each iteration). -/
def payload_write_events (buffer_base : Nat) (payload : List Nat) : List MEvent :=
  (List.range PAYLOAD_ARG_CNT).map
    (fun i => MEvent.writeBuf (buffer_base + i * PAYLOAD_ARG_SIZE) (payload.getD i 0))

/-- Embedding of `pm_ipi_send`: wait for the channel to clear (via
`pm_ipi_wait`), write the payload words into the request region, write the
trigger bit, return `PM_RET_SUCCESS`. -/
def pm_ipi_send (proc : pm_proc) (payload : List Nat) (obs : Nat → Nat)
    (fuel : Nat) : Option (List MEvent × Nat) :=
  match pm_ipi_wait proc obs fuel with
  | some (wtr, _) =>
    some (wtr ++
      payload_write_events
        (proc.ipi.buffer_base + IPI_BUFFER_TARGET_PMU_OFFSET + IPI_BUFFER_REQ_OFFSET)
        payload ++
      [MEvent.writeBuf (proc.ipi.base + IPI_TRIG_OFFSET) IPI_PMU_PM_INT_MASK],
      PM_RET_SUCCESS)
  | none => none

/-- Embedding of `pm_ipi_buff_read32`: wait for the channel to clear, then
if the caller passed a non-NULL value pointer (`wantValue`) read the second
response word and deliver it, and return the first response word as the
status.  `mem` is the register space the response region is read from.
Yields the trace, the returned status and the optional delivered value. -/
def pm_ipi_buff_read32 (proc : pm_proc) (wantValue : Bool) (mem : Nat → Nat)
    (obs : Nat → Nat) (fuel : Nat) : Option (List MEvent × Nat × Option Nat) :=
  match pm_ipi_wait proc obs fuel with
  | some (wtr, _) =>
    some (wtr ++
      (if wantValue then
        [MEvent.readBuf (proc.ipi.buffer_base + IPI_BUFFER_TARGET_PMU_OFFSET +
          IPI_BUFFER_RESP_OFFSET + PAYLOAD_ARG_SIZE)]
      else []) ++
      [MEvent.readBuf (proc.ipi.buffer_base + IPI_BUFFER_TARGET_PMU_OFFSET +
        IPI_BUFFER_RESP_OFFSET)],
      pm_read mem (proc.ipi.buffer_base + IPI_BUFFER_TARGET_PMU_OFFSET +
        IPI_BUFFER_RESP_OFFSET),
      if wantValue then
        some (pm_read mem (proc.ipi.buffer_base + IPI_BUFFER_TARGET_PMU_OFFSET +
          IPI_BUFFER_RESP_OFFSET + PAYLOAD_ARG_SIZE))
      else none)
  | none => none

/-- Effect of a trace on the register space: buffer writes are applied in
order, all other events leave memory unchanged. -/
def apply_events (m : Nat → Nat) : List MEvent → (Nat → Nat)
  | [] => m
  | MEvent.writeBuf a v :: rest => apply_events (pm_write m a v) rest
  | MEvent.acquire :: rest => apply_events m rest
  | MEvent.release :: rest => apply_events m rest
  | MEvent.readObs _ :: rest => apply_events m rest
  | MEvent.readBuf _ :: rest => apply_events m rest

/-- Bit `i` of the all-ones 32-bit word is set exactly when `i < 32`. -/
lemma testBit_word_mask (i : Nat) : (WORD_MOD - 1).testBit i = decide (i < 32) := by
  have h := Nat.testBit_two_pow_sub_one 32 i
  simpa [WORD_MOD] using h

/-- Clearing bit `k` of a word via the 32-bit complement of `2^k` makes
bit `k` of the result false. -/
lemma clear_bit_testBit_self (v k : Nat) (hk : k < 32) :
    (v &&& compl32 (2 ^ k)).testBit k = false := by
  rw [Nat.testBit_and, compl32, Nat.testBit_xor, testBit_word_mask,
    Nat.testBit_two_pow]
  simp [hk]

/-- Clearing bit `k` of a 32-bit word leaves every other bit unchanged. -/
lemma clear_bit_testBit_other (v k i : Nat) (hv : v < WORD_MOD) (hi : i ≠ k) :
    (v &&& compl32 (2 ^ k)).testBit i = v.testBit i := by
  rw [Nat.testBit_and, compl32, Nat.testBit_xor, testBit_word_mask,
    Nat.testBit_two_pow]
  rcases Nat.lt_or_ge i 32 with hlt | hge
  · have hk : decide (k = i) = false := by
      simp
      exact fun h => hi h.symm
    simp [hlt, hk]
  · have hvi : v.testBit i = false := by
      refine Nat.testBit_lt_two_pow (Nat.lt_of_lt_of_le hv ?_)
      have h32 : (WORD_MOD : Nat) = 2 ^ 32 := rfl
      rw [h32]
      exact Nat.pow_le_pow_right (by norm_num) hge
    simp [hvi]

/-- Setting bit `k` of a word makes bit `k` of the result true. -/
lemma set_bit_testBit_self (v k : Nat) : (v ||| 2 ^ k).testBit k = true := by
  simp [Nat.testBit_or, Nat.testBit_two_pow_self]

/-- Setting bit `k` of a word leaves every other bit unchanged. -/
lemma set_bit_testBit_other (v k i : Nat) (hi : i ≠ k) :
    (v ||| 2 ^ k).testBit i = v.testBit i := by
  simp [Nat.testBit_or, Nat.testBit_two_pow_of_ne (fun h => hi h.symm)]

/-- Masking with the 32-bit complement of a 32-bit mask keeps the word
below `2^32`. -/
lemma and_compl32_lt (v m : Nat) (hm : m < WORD_MOD) :
    v &&& compl32 m < WORD_MOD := by
  show v &&& compl32 m < 2 ^ 32
  refine Nat.and_lt_two_pow v ?_
  have h1 : (WORD_MOD - 1 : Nat) < 2 ^ 32 := by norm_num [WORD_MOD]
  have h2 : m < 2 ^ 32 := hm
  simpa [compl32] using Nat.xor_lt_two_pow h1 h2

/-- C2: for every cpu index within the registry's bounds, `pm_get_proc`
returns the descriptor at that position, whose `node_id` is the declared
mapping `NODE_APU_0..NODE_APU_3` in index order; for every index out of
bounds it returns `none` (NULL).  The operation is a pure function of its
argument, hence has no side effects. -/
theorem pm_get_proc_spec (i : Nat) :
    (i < pm_procs_all.length →
      pm_get_proc i = pm_procs_all[i]? ∧
      Option.map (fun p => p.node_id) (pm_get_proc i) =
        [NODE_APU_0, NODE_APU_1, NODE_APU_2, NODE_APU_3][i]?) ∧
    (pm_procs_all.length ≤ i → pm_get_proc i = none) := by
  constructor
  · intro h
    have h4 : i < 4 := by simpa [pm_procs_all] using h
    interval_cases i
    · exact ⟨by decide, by decide⟩
    · exact ⟨by decide, by decide⟩
    · exact ⟨by decide, by decide⟩
    · exact ⟨by decide, by decide⟩
  · intro h
    have h4 : ¬ i < pm_procs_all.length := Nat.not_lt.mpr h
    simp [pm_get_proc, h4]

/-- Witness for C2 at concrete inputs: index 2 is in bounds and maps to the
third descriptor, index 9 is out of bounds and maps to `none`. -/
theorem pm_get_proc_spec_witness :
    pm_get_proc 2 = some pm_apu_2_proc ∧ pm_get_proc 9 = none := by
  have h1 := (pm_get_proc_spec 2).1 (by decide)
  have h2 := (pm_get_proc_spec 9).2 (by decide)
  exact ⟨h1.1.trans (by decide), h2⟩

/-- C3: `pm_get_proc_by_node` and `pm_get_cpuid` are mutual inverses over
the registered node ids: every registered node id resolves to the
descriptor carrying it, and `pm_get_cpuid` gives the registry position of
that very descriptor; every unregistered node id yields `none` and the
sentinel `UNDEFINED_CPUID`. -/
theorem node_lookup_mutual_inverse (n : Nat) :
    (n ∈ pm_procs_all.map (fun p => p.node_id) →
      Option.map (fun p => p.node_id) (pm_get_proc_by_node n) = some n ∧
      pm_procs_all[pm_get_cpuid n]? = pm_get_proc_by_node n) ∧
    (n ∉ pm_procs_all.map (fun p => p.node_id) →
      pm_get_proc_by_node n = none ∧ pm_get_cpuid n = UNDEFINED_CPUID) := by
  constructor
  · intro h
    have h4 : n = NODE_APU_0 ∨ n = NODE_APU_1 ∨ n = NODE_APU_2 ∨ n = NODE_APU_3 := by
      simpa [pm_procs_all, pm_apu_0_proc, pm_apu_1_proc, pm_apu_2_proc,
        pm_apu_3_proc] using h
    rcases h4 with h | h | h | h <;> subst h <;> exact ⟨by decide, by decide⟩
  · intro h
    have hn : n ≠ NODE_APU_0 ∧ n ≠ NODE_APU_1 ∧ n ≠ NODE_APU_2 ∧ n ≠ NODE_APU_3 := by
      constructor
      · intro he; exact h (by simp [pm_procs_all, pm_apu_0_proc, he])
      constructor
      · intro he; exact h (by simp [pm_procs_all, pm_apu_1_proc, he])
      constructor
      · intro he; exact h (by simp [pm_procs_all, pm_apu_2_proc, he])
      · intro he; exact h (by simp [pm_procs_all, pm_apu_3_proc, he])
    obtain ⟨h0, h1, h2, h3⟩ := hn
    have b0 : (pm_apu_0_proc.node_id == n) = false :=
      beq_eq_false_iff_ne.mpr (fun he => h0 (he.symm))
    have b1 : (pm_apu_1_proc.node_id == n) = false :=
      beq_eq_false_iff_ne.mpr (fun he => h1 (he.symm))
    have b2 : (pm_apu_2_proc.node_id == n) = false :=
      beq_eq_false_iff_ne.mpr (fun he => h2 (he.symm))
    have b3 : (pm_apu_3_proc.node_id == n) = false :=
      beq_eq_false_iff_ne.mpr (fun he => h3 (he.symm))
    constructor
    · simp [pm_get_proc_by_node, pm_procs_all, List.find?, b0, b1, b2, b3]
    · simp [pm_get_cpuid, pm_get_cpuid_scan, pm_procs_all, b0, b1, b2, b3]

/-- Witness for C3 at concrete inputs: the registered node id `NODE_APU_1`
round-trips through both lookups, and the unregistered id 0 yields the
absent value and the sentinel. -/
theorem node_lookup_mutual_inverse_witness :
    Option.map (fun p => p.node_id) (pm_get_proc_by_node NODE_APU_1) =
      some NODE_APU_1 ∧
    pm_procs_all[pm_get_cpuid NODE_APU_1]? = pm_get_proc_by_node NODE_APU_1 ∧
    pm_get_proc_by_node 0 = none ∧
    pm_get_cpuid 0 = UNDEFINED_CPUID := by
  have h1 := (node_lookup_mutual_inverse NODE_APU_1).1 (by decide)
  have h2 := (node_lookup_mutual_inverse 0).2 (by decide)
  exact ⟨h1.1, h1.2, h2.1, h2.2⟩

/-- Value read back from `APU_PWRCTL` after `pm_client_abort_suspend`: the
previous value with the primary core's bit (bit 0) cleared. -/
lemma abort_suspend_mem_pwrctl (s : ClientState) :
    (pm_client_abort_suspend s).mem APU_PWRCTL =
      s.mem APU_PWRCTL &&& compl32 (2 ^ 0) := by
  show (if APU_PWRCTL = APU_PWRCTL then
      (pm_read s.mem APU_PWRCTL &&& compl32 primary_proc.pwrdn_mask) % WORD_MOD
    else s.mem APU_PWRCTL) = s.mem APU_PWRCTL &&& compl32 (2 ^ 0)
  rw [if_pos rfl]
  exact Nat.mod_eq_of_lt (and_compl32_lt _ _ (by decide))

/-- C7: `pm_client_abort_suspend` is idempotent on the power-control
register: after each of two consecutive calls the primary core's
powerdown bit is clear, and the second call leaves the register space
unchanged at every address (clearing an already-clear bit is a no-op). -/
theorem abort_suspend_idempotent (s : ClientState) (a : Nat) :
    ((pm_client_abort_suspend s).mem APU_PWRCTL).testBit 0 = false ∧
    ((pm_client_abort_suspend (pm_client_abort_suspend s)).mem
      APU_PWRCTL).testBit 0 = false ∧
    (pm_client_abort_suspend (pm_client_abort_suspend s)).mem a =
      (pm_client_abort_suspend s).mem a := by
  have h1 := abort_suspend_mem_pwrctl s
  have h2 := abort_suspend_mem_pwrctl (pm_client_abort_suspend s)
  refine ⟨?_, ?_, ?_⟩
  · rw [h1]
    exact clear_bit_testBit_self _ 0 (by norm_num)
  · rw [h2]
    exact clear_bit_testBit_self _ 0 (by norm_num)
  · rcases eq_or_ne a APU_PWRCTL with rfl | ha
    · rw [h1, h2, h1]
      apply Nat.eq_of_testBit_eq
      intro i
      rcases eq_or_ne i 0 with rfl | hi
      · rw [clear_bit_testBit_self _ 0 (by norm_num),
          clear_bit_testBit_self _ 0 (by norm_num)]
      · exact clear_bit_testBit_other _ 0 i
          (and_compl32_lt _ _ (by decide)) hi
    · simp [pm_client_abort_suspend, pm_write, ha]

/-- C8: `pm_client_wakeup` for a descriptor whose node id is not in the
registry (the cpu-id lookup yields the sentinel) is a silent no-op: the
whole client state, in particular `APU_PWRCTL`, is unchanged and no error
is reported. -/
theorem wakeup_unregistered_noop (proc : pm_proc) (s : ClientState)
    (h : pm_get_cpuid proc.node_id = UNDEFINED_CPUID) :
    pm_client_wakeup proc s = s := by
  unfold pm_client_wakeup
  rw [h]
  simp

/-- Witness for C8: node id 0 is not registered (the registry holds ids
2..5), so waking such a descriptor leaves the state untouched. -/
theorem wakeup_unregistered_noop_witness :
    pm_client_wakeup ⟨0, 1, apu_ipi⟩ ⟨fun _ => 0, true⟩ =
      ⟨fun _ => 0, true⟩ :=
  wakeup_unregistered_noop ⟨0, 1, apu_ipi⟩ ⟨fun _ => 0, true⟩ (by decide)

/-- C9: each power-transition operation touches only its own core's bit of
the shared power-control register.  For every 32-bit starting register
value: `pm_client_suspend` on core 1 stores old OR mask (setting bit 1,
leaving all other bits and addresses unchanged) and disables the caller's
local interrupts; a subsequent `pm_client_wakeup` on core 1 stores old AND
NOT mask (clearing bit 1, leaving all other bits unchanged); and
`pm_client_abort_suspend` clears only the primary core's bit 0, leaving
bit 1 unchanged. -/
theorem power_ops_touch_own_bit (s : ClientState)
    (h : s.mem APU_PWRCTL < WORD_MOD) :
    ((pm_client_suspend pm_apu_1_proc s).mem APU_PWRCTL =
      s.mem APU_PWRCTL ||| APU_1_PWRCTL_CPUPWRDWNREQ_MASK) ∧
    ((pm_client_suspend pm_apu_1_proc s).mem APU_PWRCTL).testBit 1 = true ∧
    (∀ i, i ≠ 1 →
      ((pm_client_suspend pm_apu_1_proc s).mem APU_PWRCTL).testBit i =
        (s.mem APU_PWRCTL).testBit i) ∧
    (∀ a, a ≠ APU_PWRCTL →
      (pm_client_suspend pm_apu_1_proc s).mem a = s.mem a) ∧
    (pm_client_suspend pm_apu_1_proc s).gic_enabled = false ∧
    ((pm_client_wakeup pm_apu_1_proc (pm_client_suspend pm_apu_1_proc s)).mem
        APU_PWRCTL =
      (pm_client_suspend pm_apu_1_proc s).mem APU_PWRCTL &&&
        compl32 APU_1_PWRCTL_CPUPWRDWNREQ_MASK) ∧
    ((pm_client_wakeup pm_apu_1_proc (pm_client_suspend pm_apu_1_proc s)).mem
        APU_PWRCTL).testBit 1 = false ∧
    (∀ i, i ≠ 1 →
      ((pm_client_wakeup pm_apu_1_proc (pm_client_suspend pm_apu_1_proc s)).mem
          APU_PWRCTL).testBit i =
        ((pm_client_suspend pm_apu_1_proc s).mem APU_PWRCTL).testBit i) ∧
    ((pm_client_abort_suspend s).mem APU_PWRCTL).testBit 0 = false ∧
    ((pm_client_abort_suspend s).mem APU_PWRCTL).testBit 1 =
      (s.mem APU_PWRCTL).testBit 1 := by
  have hs : (pm_client_suspend pm_apu_1_proc s).mem APU_PWRCTL =
      s.mem APU_PWRCTL ||| 2 := by
    show (if APU_PWRCTL = APU_PWRCTL then
        (pm_read s.mem APU_PWRCTL ||| pm_apu_1_proc.pwrdn_mask) % WORD_MOD
      else s.mem APU_PWRCTL) = s.mem APU_PWRCTL ||| 2
    rw [if_pos rfl]
    exact Nat.mod_eq_of_lt (Nat.or_lt_two_pow h (by decide))
  have hslt : (pm_client_suspend pm_apu_1_proc s).mem APU_PWRCTL < WORD_MOD := by
    rw [hs]
    exact Nat.or_lt_two_pow h (by decide)
  have hcpu : UNDEFINED_CPUID ≠ pm_get_cpuid pm_apu_1_proc.node_id := by decide
  have hw : (pm_client_wakeup pm_apu_1_proc
        (pm_client_suspend pm_apu_1_proc s)).mem APU_PWRCTL =
      (pm_client_suspend pm_apu_1_proc s).mem APU_PWRCTL &&& compl32 (2 ^ 1) := by
    rw [pm_client_wakeup, if_pos hcpu]
    show (if APU_PWRCTL = APU_PWRCTL then
        (pm_read (pm_client_suspend pm_apu_1_proc s).mem APU_PWRCTL &&&
          compl32 pm_apu_1_proc.pwrdn_mask) % WORD_MOD
      else (pm_client_suspend pm_apu_1_proc s).mem APU_PWRCTL) = _
    rw [if_pos rfl]
    exact Nat.mod_eq_of_lt (and_compl32_lt _ _ (by decide))
  have ha := abort_suspend_mem_pwrctl s
  refine ⟨hs, ?_, ?_, ?_, rfl, hw, ?_, ?_, ?_, ?_⟩
  · rw [hs, show (2 : Nat) = 2 ^ 1 from rfl]
    exact set_bit_testBit_self _ 1
  · intro i hi
    rw [hs, show (2 : Nat) = 2 ^ 1 from rfl]
    exact set_bit_testBit_other _ 1 i hi
  · intro a haddr
    simp [pm_client_suspend, pm_write, haddr]
  · rw [hw]
    exact clear_bit_testBit_self _ 1 (by norm_num)
  · intro i hi
    rw [hw]
    exact clear_bit_testBit_other _ 1 i hslt hi
  · rw [ha]
    exact clear_bit_testBit_self _ 0 (by norm_num)
  · rw [ha]
    exact clear_bit_testBit_other _ 0 1 h (by norm_num)

/-- Witness for C9 at the concrete starting register value 5 (bits 0 and 2
set): suspend of core 1 stores 7, the following wakeup of core 1 stores 5
again, and abort-suspend stores 4 (only bit 0 cleared). -/
theorem power_ops_touch_own_bit_witness :
    (pm_client_suspend pm_apu_1_proc ⟨fun _ => 5, true⟩).mem APU_PWRCTL = 7 ∧
    (pm_client_wakeup pm_apu_1_proc
      (pm_client_suspend pm_apu_1_proc ⟨fun _ => 5, true⟩)).mem APU_PWRCTL = 5 ∧
    ((pm_client_abort_suspend ⟨fun _ => 5, true⟩).mem APU_PWRCTL).testBit 0 =
      false := by
  have hp := power_ops_touch_own_bit ⟨fun _ => 5, true⟩ (by decide)
  obtain ⟨hs, _, _, _, _, hw, _, _, hb0, _⟩ := hp
  refine ⟨?_, ?_, hb0⟩
  · rw [hs]
    decide
  · rw [hw, hs]
    decide

/-- If some poll within the fuel bound observes the interrupt bit clear,
the busy-wait loop exits. -/
lemma pm_ipi_wait_poll_some (obs : Nat → Nat) (addr : Nat) :
    ∀ fuel k, (∃ j, j < fuel ∧ obs (k + j) &&& IPI_PMU_PM_INT_MASK = 0) →
      ∃ tr, pm_ipi_wait_poll obs addr fuel k = some tr := by
  intro fuel
  induction fuel with
  | zero =>
    rintro k ⟨j, hj, _⟩
    omega
  | succ f ih =>
    rintro k ⟨j, hj, hz⟩
    by_cases h0 : obs k &&& IPI_PMU_PM_INT_MASK = 0
    · exact ⟨[MEvent.readObs addr], by simp [pm_ipi_wait_poll, h0]⟩
    · have hj0 : j ≠ 0 := by
        rintro rfl
        simp at hz
        exact h0 hz
      obtain ⟨tr, htr⟩ := ih (k + 1)
        ⟨j - 1, by omega, by have : k + 1 + (j - 1) = k + j := by omega
                             rw [this]; exact hz⟩
      exact ⟨MEvent.readObs addr :: tr, by simp [pm_ipi_wait_poll, h0, htr]⟩

/-- If every poll observes the interrupt bit set, the busy-wait loop never
exits, whatever the fuel. -/
lemma pm_ipi_wait_poll_none (obs : Nat → Nat) (addr : Nat)
    (h : ∀ k, obs k &&& IPI_PMU_PM_INT_MASK ≠ 0) :
    ∀ fuel k, pm_ipi_wait_poll obs addr fuel k = none := by
  intro fuel
  induction fuel with
  | zero => intro k; rfl
  | succ f ih => intro k; simp [pm_ipi_wait_poll, h k, ih (k + 1)]

/-- Every event of a completed busy-wait loop is a poll of the observation
register. -/
lemma pm_ipi_wait_poll_shape (obs : Nat → Nat) (addr : Nat) :
    ∀ fuel k tr, pm_ipi_wait_poll obs addr fuel k = some tr →
      ∀ e ∈ tr, e = MEvent.readObs addr := by
  intro fuel
  induction fuel with
  | zero => intro k tr h; exact absurd h (by simp [pm_ipi_wait_poll])
  | succ f ih =>
    intro k tr h e he
    by_cases h0 : obs k &&& IPI_PMU_PM_INT_MASK = 0
    · simp [pm_ipi_wait_poll, h0] at h
      subst h
      simpa using he
    · simp [pm_ipi_wait_poll, h0] at h
      rcases hrec : pm_ipi_wait_poll obs addr f (k + 1) with _ | tr2
      · rw [hrec] at h
        exact absurd h (by simp)
      · rw [hrec] at h
        simp at h
        subst h
        rcases List.mem_cons.mp he with rfl | he2
        · rfl
        · exact ih (k + 1) tr2 hrec e he2

/-- Shape of a terminating `pm_ipi_wait` execution: it returns
`PM_RET_SUCCESS` and its trace is the lock acquisition, a nonempty run of
observation-register polls, and the lock release. -/
lemma pm_ipi_wait_shape (proc : pm_proc) (obs : Nat → Nat) (fuel : Nat)
    (tr : List MEvent) (r : Nat)
    (h : pm_ipi_wait proc obs fuel = some (tr, r)) :
    r = PM_RET_SUCCESS ∧
    ∃ ptr, tr = MEvent.acquire :: ptr ++ [MEvent.release] ∧
      ∀ e ∈ ptr, e = MEvent.readObs (proc.ipi.base + IPI_OBS_OFFSET) := by
  unfold pm_ipi_wait at h
  rcases hp : pm_ipi_wait_poll obs (proc.ipi.base + IPI_OBS_OFFSET) fuel 0 with
    _ | ptr
  · rw [hp] at h
    exact absurd h (by simp)
  · rw [hp] at h
    obtain ⟨h1, h2⟩ := Prod.ext_iff.mp (Option.some.inj h)
    subst h1
    subst h2
    exact ⟨rfl, ptr, rfl, pm_ipi_wait_poll_shape obs _ fuel 0 ptr hp⟩

/-- Applying a concatenated trace applies the two halves in order. -/
lemma apply_events_append (m : Nat → Nat) (l1 l2 : List MEvent) :
    apply_events m (l1 ++ l2) = apply_events (apply_events m l1) l2 := by
  induction l1 generalizing m with
  | nil => rfl
  | cons e rest ih => cases e <;> simp [apply_events, ih]

/-- A trace without buffer writes leaves memory unchanged. -/
lemma apply_events_no_write (m : Nat → Nat) (l : List MEvent)
    (h : ∀ e ∈ l, ∀ a v, e ≠ MEvent.writeBuf a v) :
    apply_events m l = m := by
  induction l with
  | nil => rfl
  | cons e rest ih =>
    have hrest := ih (fun x hx => h x (List.mem_cons_of_mem _ hx))
    cases e with
    | acquire => exact hrest
    | release => exact hrest
    | readObs a => exact hrest
    | readBuf a => exact hrest
    | writeBuf a v =>
      exact absurd rfl (h (MEvent.writeBuf a v) (List.mem_cons_self _ _) a v)

/-- A terminating `pm_ipi_wait` leaves memory unchanged: its trace holds no
buffer writes. -/
lemma pm_ipi_wait_apply (proc : pm_proc) (obs : Nat → Nat) (fuel : Nat)
    (tr : List MEvent) (r : Nat)
    (h : pm_ipi_wait proc obs fuel = some (tr, r)) (m : Nat → Nat) :
    apply_events m tr = m := by
  obtain ⟨-, ptr, htr, hptr⟩ := pm_ipi_wait_shape proc obs fuel tr r h
  subst htr
  apply apply_events_no_write
  intro e he a v
  rcases List.mem_cons.mp he with rfl | he2
  · simp
  · rcases List.mem_append.mp he2 with he3 | he3
    · rw [hptr e he3]; simp
    · simp at he3; rw [he3]; simp

/-- C6: if the PMU is live — some poll eventually observes the
request-pending bit clear — then `pm_ipi_wait` terminates for every
descriptor and returns `PM_RET_SUCCESS`; without that precondition the
busy-wait never exits, whatever bound is allowed: there is no timeout and
the calling core blocks indefinitely. -/
theorem pm_ipi_wait_terminates_iff_live (proc : pm_proc) (obs : Nat → Nat) :
    ((∃ k, obs k &&& IPI_PMU_PM_INT_MASK = 0) →
      ∃ fuel tr, pm_ipi_wait proc obs fuel = some (tr, PM_RET_SUCCESS)) ∧
    ((∀ k, obs k &&& IPI_PMU_PM_INT_MASK ≠ 0) →
      ∀ fuel, pm_ipi_wait proc obs fuel = none) := by
  constructor
  · rintro ⟨k, hk⟩
    obtain ⟨tr, htr⟩ := pm_ipi_wait_poll_some obs
      (proc.ipi.base + IPI_OBS_OFFSET) (k + 1) 0 ⟨k, by omega, by simpa using hk⟩
    exact ⟨k + 1, MEvent.acquire :: tr ++ [MEvent.release],
      by simp [pm_ipi_wait, htr]⟩
  · intro h fuel
    simp [pm_ipi_wait, pm_ipi_wait_poll_none obs _ h fuel 0]

/-- Witness for C6: with a PMU that immediately reports the channel clear,
`pm_ipi_wait` terminates with success after one poll. -/
theorem pm_ipi_wait_terminates_iff_live_witness :
    ∃ fuel tr, pm_ipi_wait pm_apu_0_proc (fun _ => 0) fuel =
      some (tr, PM_RET_SUCCESS) :=
  (pm_ipi_wait_terminates_iff_live pm_apu_0_proc (fun _ => 0)).1 ⟨0, by decide⟩

/-- Events of a terminating `pm_ipi_wait` never touch the message buffer:
none is a buffer write or a response read. -/
lemma pm_ipi_wait_no_buf_access (proc : pm_proc) (obs : Nat → Nat)
    (fuel : Nat) (tr : List MEvent) (r : Nat)
    (h : pm_ipi_wait proc obs fuel = some (tr, r)) :
    ∀ e ∈ tr, (∀ a v, e ≠ MEvent.writeBuf a v) ∧
      (∀ a, e ≠ MEvent.readBuf a) := by
  intro e he
  obtain ⟨-, ptr, htr, hptr⟩ := pm_ipi_wait_shape proc obs fuel tr r h
  subst htr
  rcases List.mem_cons.mp he with rfl | he2
  · exact ⟨fun a v => by simp, fun a => by simp⟩
  · rcases List.mem_append.mp he2 with he3 | he3
    · rw [hptr e he3]
      exact ⟨fun a v => by simp, fun a => by simp⟩
    · simp at he3
      rw [he3]
      exact ⟨fun a v => by simp, fun a => by simp⟩

/-- Unfolded form of the six payload writes. -/
lemma payload_write_events_eq (b : Nat) (payload : List Nat) :
    payload_write_events b payload =
      [MEvent.writeBuf (b + 0 * PAYLOAD_ARG_SIZE) (payload.getD 0 0),
       MEvent.writeBuf (b + 1 * PAYLOAD_ARG_SIZE) (payload.getD 1 0),
       MEvent.writeBuf (b + 2 * PAYLOAD_ARG_SIZE) (payload.getD 2 0),
       MEvent.writeBuf (b + 3 * PAYLOAD_ARG_SIZE) (payload.getD 3 0),
       MEvent.writeBuf (b + 4 * PAYLOAD_ARG_SIZE) (payload.getD 4 0),
       MEvent.writeBuf (b + 5 * PAYLOAD_ARG_SIZE) (payload.getD 5 0)] := rfl

/-- C10: every terminating `pm_ipi_wait` acquires the global lock exactly
once, releases it exactly once, and its last action is the release, so no
mailbox operation returns while holding the lock; consequently in every
terminating `pm_ipi_send` and `pm_ipi_buff_read32` execution the trace
splits into the wait prefix, which ends with the lock release and performs
no buffer access, and a remainder performing all the buffer writes, the
trigger write and the response reads with no lock operation at all —
i.e. all of those occur after the lock has been released. -/
theorem mailbox_lock_discipline (proc : pm_proc) (obs : Nat → Nat) (fuel : Nat) :
    (∀ tr r, pm_ipi_wait proc obs fuel = some (tr, r) →
      List.count MEvent.acquire tr = 1 ∧
      List.count MEvent.release tr = 1 ∧
      tr.getLast? = some MEvent.release) ∧
    (∀ payload tr r, pm_ipi_send proc payload obs fuel = some (tr, r) →
      ∃ wtr rest, tr = wtr ++ rest ∧
        (∃ rw, pm_ipi_wait proc obs fuel = some (wtr, rw)) ∧
        wtr.getLast? = some MEvent.release ∧
        (∀ e ∈ wtr, (∀ a v, e ≠ MEvent.writeBuf a v) ∧
          (∀ a, e ≠ MEvent.readBuf a)) ∧
        (∀ e ∈ rest, e ≠ MEvent.acquire ∧ e ≠ MEvent.release)) ∧
    (∀ wantValue mem tr st vo,
      pm_ipi_buff_read32 proc wantValue mem obs fuel = some (tr, st, vo) →
      ∃ wtr rest, tr = wtr ++ rest ∧
        (∃ rw, pm_ipi_wait proc obs fuel = some (wtr, rw)) ∧
        wtr.getLast? = some MEvent.release ∧
        (∀ e ∈ wtr, (∀ a v, e ≠ MEvent.writeBuf a v) ∧
          (∀ a, e ≠ MEvent.readBuf a)) ∧
        (∀ e ∈ rest, e ≠ MEvent.acquire ∧ e ≠ MEvent.release)) := by
  have hwaitev : ∀ tr r, pm_ipi_wait proc obs fuel = some (tr, r) →
      ∀ e ∈ tr, (∀ a v, e ≠ MEvent.writeBuf a v) ∧
        (∀ a, e ≠ MEvent.readBuf a) := by
    intro tr r h e he
    obtain ⟨-, ptr, htr, hptr⟩ := pm_ipi_wait_shape proc obs fuel tr r h
    subst htr
    rcases List.mem_cons.mp he with rfl | he2
    · exact ⟨fun a v => by simp, fun a => by simp⟩
    · rcases List.mem_append.mp he2 with he3 | he3
      · rw [hptr e he3]
        exact ⟨fun a v => by simp, fun a => by simp⟩
      · simp at he3
        rw [he3]
        exact ⟨fun a v => by simp, fun a => by simp⟩
  have hwaitlast : ∀ tr r, pm_ipi_wait proc obs fuel = some (tr, r) →
      tr.getLast? = some MEvent.release := by
    intro tr r h
    obtain ⟨-, ptr, htr, -⟩ := pm_ipi_wait_shape proc obs fuel tr r h
    subst htr
    rw [show MEvent.acquire :: ptr ++ [MEvent.release] =
      (MEvent.acquire :: ptr) ++ [MEvent.release] from rfl]
    exact List.getLast?_concat _
  refine ⟨?_, ?_, ?_⟩
  · intro tr r h
    obtain ⟨-, ptr, htr, hptr⟩ := pm_ipi_wait_shape proc obs fuel tr r h
    have hc : ∀ b : MEvent, (∀ e ∈ ptr, e ≠ b) → List.count b ptr = 0 :=
      fun b hb => List.count_eq_zero.mpr (fun hmem => hb b hmem rfl)
    subst htr
    refine ⟨?_, ?_, hwaitlast _ r h⟩
    · have h0 : List.count MEvent.acquire ptr = 0 :=
        hc _ (fun e he => by rw [hptr e he]; simp)
      simp [List.count_cons, List.count_append, h0]
    · have h0 : List.count MEvent.release ptr = 0 :=
        hc _ (fun e he => by rw [hptr e he]; simp)
      simp [List.count_cons, List.count_append, h0]
  · intro payload tr r h
    unfold pm_ipi_send at h
    rcases hw : pm_ipi_wait proc obs fuel with _ | wpair
    · rw [hw] at h
      exact absurd h (by simp)
    · obtain ⟨wtr, rw0⟩ := wpair
      rw [hw] at h
      have h1 : wtr ++
          payload_write_events (proc.ipi.buffer_base +
            IPI_BUFFER_TARGET_PMU_OFFSET + IPI_BUFFER_REQ_OFFSET) payload ++
          [MEvent.writeBuf (proc.ipi.base + IPI_TRIG_OFFSET)
            IPI_PMU_PM_INT_MASK] = tr :=
        congrArg Prod.fst (Option.some.inj h)
      refine ⟨wtr,
        payload_write_events (proc.ipi.buffer_base +
          IPI_BUFFER_TARGET_PMU_OFFSET + IPI_BUFFER_REQ_OFFSET) payload ++
        [MEvent.writeBuf (proc.ipi.base + IPI_TRIG_OFFSET)
          IPI_PMU_PM_INT_MASK],
        ?_, ⟨rw0, rfl⟩, hwaitlast _ _ hw, hwaitev _ _ hw, ?_⟩
      · rw [← h1, List.append_assoc]
      · intro e he
        rcases List.mem_append.mp he with he1 | he1
        · simp [payload_write_events] at he1
          obtain ⟨i, -, hei⟩ := he1
          rw [← hei]
          exact ⟨by simp, by simp⟩
        · simp at he1
          rw [he1]
          exact ⟨by simp, by simp⟩
  · intro wantValue mem tr st vo h
    unfold pm_ipi_buff_read32 at h
    rcases hw : pm_ipi_wait proc obs fuel with _ | wpair
    · rw [hw] at h
      exact absurd h (by simp)
    · obtain ⟨wtr, rw0⟩ := wpair
      rw [hw] at h
      have h1 : wtr ++
          (if wantValue then
            [MEvent.readBuf (proc.ipi.buffer_base +
              IPI_BUFFER_TARGET_PMU_OFFSET + IPI_BUFFER_RESP_OFFSET +
              PAYLOAD_ARG_SIZE)]
          else []) ++
          [MEvent.readBuf (proc.ipi.buffer_base +
            IPI_BUFFER_TARGET_PMU_OFFSET + IPI_BUFFER_RESP_OFFSET)] = tr :=
        congrArg Prod.fst (Option.some.inj h)
      refine ⟨wtr,
        (if wantValue then
          [MEvent.readBuf (proc.ipi.buffer_base +
            IPI_BUFFER_TARGET_PMU_OFFSET + IPI_BUFFER_RESP_OFFSET +
            PAYLOAD_ARG_SIZE)]
        else []) ++
        [MEvent.readBuf (proc.ipi.buffer_base +
          IPI_BUFFER_TARGET_PMU_OFFSET + IPI_BUFFER_RESP_OFFSET)],
        ?_, ⟨rw0, rfl⟩, hwaitlast _ _ hw, hwaitev _ _ hw, ?_⟩
      · rw [← h1, List.append_assoc]
      · intro e he
        rcases List.mem_append.mp he with he1 | he1
        · rcases hv : wantValue with _ | _
          · rw [hv] at he1
            simp at he1
          · rw [hv] at he1
            simp at he1
            rw [he1]
            exact ⟨by simp, by simp⟩
        · simp at he1
          rw [he1]
          exact ⟨by simp, by simp⟩

/-- Witness for C10: the concrete one-poll wait trace of core 0 holds one
acquire, one release, and ends with the release. -/
theorem mailbox_lock_discipline_witness :
    List.count MEvent.acquire
      [MEvent.acquire, MEvent.readObs (IPI_BASEADDR + IPI_OBS_OFFSET),
        MEvent.release] = 1 ∧
    List.count MEvent.release
      [MEvent.acquire, MEvent.readObs (IPI_BASEADDR + IPI_OBS_OFFSET),
        MEvent.release] = 1 ∧
    ([MEvent.acquire, MEvent.readObs (IPI_BASEADDR + IPI_OBS_OFFSET),
        MEvent.release] : List MEvent).getLast? = some MEvent.release :=
  (mailbox_lock_discipline pm_apu_0_proc (fun _ => 0) 1).1
    [MEvent.acquire, MEvent.readObs (IPI_BASEADDR + IPI_OBS_OFFSET),
      MEvent.release] PM_RET_SUCCESS rfl

/-- C4: every terminating `pm_ipi_send` returns `PM_RET_SUCCESS`; its trace
is the wait-for-channel-clear prefix followed by the `PAYLOAD_ARG_CNT`
sequential payload writes into the request region (word `i` at
`buffer_base + request offset + i * PAYLOAD_ARG_SIZE`) and finally the
trigger-bit write; after the run the request region holds the payload
words and the trigger register holds the interrupt mask; and the trace
contains no response read — the call does not wait for a response. -/
theorem pm_ipi_send_spec (proc : pm_proc) (payload : List Nat)
    (obs : Nat → Nat) (fuel : Nat) (tr : List MEvent) (ret : Nat)
    (hip : proc.ipi = apu_ipi)
    (h : pm_ipi_send proc payload obs fuel = some (tr, ret)) :
    ret = PM_RET_SUCCESS ∧
    (∃ wtr rw, pm_ipi_wait proc obs fuel = some (wtr, rw) ∧
      tr = wtr ++
        payload_write_events (proc.ipi.buffer_base +
          IPI_BUFFER_TARGET_PMU_OFFSET + IPI_BUFFER_REQ_OFFSET) payload ++
        [MEvent.writeBuf (proc.ipi.base + IPI_TRIG_OFFSET)
          IPI_PMU_PM_INT_MASK]) ∧
    (∀ m i, i < PAYLOAD_ARG_CNT →
      apply_events m tr (proc.ipi.buffer_base + IPI_BUFFER_TARGET_PMU_OFFSET +
        IPI_BUFFER_REQ_OFFSET + i * PAYLOAD_ARG_SIZE) =
        payload.getD i 0 % WORD_MOD) ∧
    (∀ m, apply_events m tr (proc.ipi.base + IPI_TRIG_OFFSET) =
      IPI_PMU_PM_INT_MASK) ∧
    (∀ e ∈ tr, ∀ a, e ≠ MEvent.readBuf a) := by
  unfold pm_ipi_send at h
  rcases hw : pm_ipi_wait proc obs fuel with _ | wpair
  · rw [hw] at h
    exact absurd h (by simp)
  obtain ⟨wtr, rw0⟩ := wpair
  rw [hw] at h
  have h1 : wtr ++
      payload_write_events (proc.ipi.buffer_base +
        IPI_BUFFER_TARGET_PMU_OFFSET + IPI_BUFFER_REQ_OFFSET) payload ++
      [MEvent.writeBuf (proc.ipi.base + IPI_TRIG_OFFSET)
        IPI_PMU_PM_INT_MASK] = tr :=
    congrArg Prod.fst (Option.some.inj h)
  have h2 : PM_RET_SUCCESS = ret := congrArg Prod.snd (Option.some.inj h)
  have happly : ∀ m : Nat → Nat, apply_events m tr = apply_events m
      (payload_write_events (proc.ipi.buffer_base +
        IPI_BUFFER_TARGET_PMU_OFFSET + IPI_BUFFER_REQ_OFFSET) payload ++
       [MEvent.writeBuf (proc.ipi.base + IPI_TRIG_OFFSET)
         IPI_PMU_PM_INT_MASK]) := by
    intro m
    rw [← h1, List.append_assoc, apply_events_append,
      pm_ipi_wait_apply proc obs fuel wtr rw0 hw m]
  refine ⟨h2.symm, ⟨wtr, rw0, rfl, h1.symm⟩, ?_, ?_, ?_⟩
  · intro m i hi
    rw [happly m, hip]
    have hi6 : i < 6 := hi
    rw [payload_write_events_eq]
    interval_cases i <;>
      simp [apply_events, pm_write, apu_ipi, IPI_BUFFER_APU_BASE,
        IPI_BUFFER_TARGET_PMU_OFFSET, IPI_BUFFER_REQ_OFFSET, IPI_BASEADDR,
        IPI_TRIG_OFFSET, PAYLOAD_ARG_SIZE, WORD_MOD]
  · intro m
    rw [happly m, hip, payload_write_events_eq]
    simp [apply_events, pm_write, apu_ipi, IPI_BUFFER_APU_BASE,
      IPI_BUFFER_TARGET_PMU_OFFSET, IPI_BUFFER_REQ_OFFSET, IPI_BASEADDR,
      IPI_TRIG_OFFSET, PAYLOAD_ARG_SIZE, IPI_PMU_PM_INT_MASK, WORD_MOD]
  · intro e he a
    rw [← h1] at he
    rcases List.mem_append.mp he with he1 | he1
    · rcases List.mem_append.mp he1 with he2 | he2
      · exact (pm_ipi_wait_no_buf_access proc obs fuel wtr rw0 hw e he2).2 a
      · simp [payload_write_events] at he2
        obtain ⟨i, -, hei⟩ := he2
        rw [← hei]
        simp
    · simp at he1
      rw [he1]
      simp

/-- Concrete trace of `pm_ipi_send` by core 0 with payload 1..6 under a
PMU that reports the channel clear at the first poll. -/
def send_trace_a : List MEvent :=
  [MEvent.acquire, MEvent.readObs (IPI_BASEADDR + IPI_OBS_OFFSET),
   MEvent.release,
   MEvent.writeBuf (IPI_BUFFER_APU_BASE + IPI_BUFFER_TARGET_PMU_OFFSET +
     IPI_BUFFER_REQ_OFFSET + 0 * PAYLOAD_ARG_SIZE) 1,
   MEvent.writeBuf (IPI_BUFFER_APU_BASE + IPI_BUFFER_TARGET_PMU_OFFSET +
     IPI_BUFFER_REQ_OFFSET + 1 * PAYLOAD_ARG_SIZE) 2,
   MEvent.writeBuf (IPI_BUFFER_APU_BASE + IPI_BUFFER_TARGET_PMU_OFFSET +
     IPI_BUFFER_REQ_OFFSET + 2 * PAYLOAD_ARG_SIZE) 3,
   MEvent.writeBuf (IPI_BUFFER_APU_BASE + IPI_BUFFER_TARGET_PMU_OFFSET +
     IPI_BUFFER_REQ_OFFSET + 3 * PAYLOAD_ARG_SIZE) 4,
   MEvent.writeBuf (IPI_BUFFER_APU_BASE + IPI_BUFFER_TARGET_PMU_OFFSET +
     IPI_BUFFER_REQ_OFFSET + 4 * PAYLOAD_ARG_SIZE) 5,
   MEvent.writeBuf (IPI_BUFFER_APU_BASE + IPI_BUFFER_TARGET_PMU_OFFSET +
     IPI_BUFFER_REQ_OFFSET + 5 * PAYLOAD_ARG_SIZE) 6,
   MEvent.writeBuf (IPI_BASEADDR + IPI_TRIG_OFFSET) IPI_PMU_PM_INT_MASK]

/-- Concrete trace of `pm_ipi_send` by core 1 with payload 7..12 under a
PMU that reports the channel clear at the first poll; both cores share the
one APU channel, so the buffer addresses coincide with `send_trace_a`. -/
def send_trace_b : List MEvent :=
  [MEvent.acquire, MEvent.readObs (IPI_BASEADDR + IPI_OBS_OFFSET),
   MEvent.release,
   MEvent.writeBuf (IPI_BUFFER_APU_BASE + IPI_BUFFER_TARGET_PMU_OFFSET +
     IPI_BUFFER_REQ_OFFSET + 0 * PAYLOAD_ARG_SIZE) 7,
   MEvent.writeBuf (IPI_BUFFER_APU_BASE + IPI_BUFFER_TARGET_PMU_OFFSET +
     IPI_BUFFER_REQ_OFFSET + 1 * PAYLOAD_ARG_SIZE) 8,
   MEvent.writeBuf (IPI_BUFFER_APU_BASE + IPI_BUFFER_TARGET_PMU_OFFSET +
     IPI_BUFFER_REQ_OFFSET + 2 * PAYLOAD_ARG_SIZE) 9,
   MEvent.writeBuf (IPI_BUFFER_APU_BASE + IPI_BUFFER_TARGET_PMU_OFFSET +
     IPI_BUFFER_REQ_OFFSET + 3 * PAYLOAD_ARG_SIZE) 10,
   MEvent.writeBuf (IPI_BUFFER_APU_BASE + IPI_BUFFER_TARGET_PMU_OFFSET +
     IPI_BUFFER_REQ_OFFSET + 4 * PAYLOAD_ARG_SIZE) 11,
   MEvent.writeBuf (IPI_BUFFER_APU_BASE + IPI_BUFFER_TARGET_PMU_OFFSET +
     IPI_BUFFER_REQ_OFFSET + 5 * PAYLOAD_ARG_SIZE) 12,
   MEvent.writeBuf (IPI_BASEADDR + IPI_TRIG_OFFSET) IPI_PMU_PM_INT_MASK]

/-- Witness for C4: the concrete core-0 send with payload 1..6 follows the
specified trace and leaves payload word 2 (value 3) in request slot 2. -/
theorem pm_ipi_send_spec_witness :
    pm_ipi_send pm_apu_0_proc [1, 2, 3, 4, 5, 6] (fun _ => 0) 1 =
      some (send_trace_a, PM_RET_SUCCESS) ∧
    apply_events (fun _ => 0) send_trace_a (IPI_BUFFER_APU_BASE +
      IPI_BUFFER_TARGET_PMU_OFFSET + IPI_BUFFER_REQ_OFFSET +
      2 * PAYLOAD_ARG_SIZE) = 3 % WORD_MOD := by
  have h := pm_ipi_send_spec pm_apu_0_proc [1, 2, 3, 4, 5, 6] (fun _ => 0) 1
    send_trace_a PM_RET_SUCCESS rfl (by decide)
  exact ⟨by decide, h.2.2.1 (fun _ => 0) 2 (by decide)⟩

/-- C5: every terminating `pm_ipi_buff_read32` performs the
wait-for-channel-clear step first (its trace extends a terminating wait
trace), always returns the word read from the first response-region slot
as the status, delivers the second response word exactly when the caller
passed a non-NULL value pointer, and with a NULL pointer reads only the
status slot of the buffer — the value word is never accessed. -/
theorem pm_ipi_buff_read32_spec (proc : pm_proc) (wantValue : Bool)
    (mem obs : Nat → Nat) (fuel : Nat) (tr : List MEvent) (status : Nat)
    (valOut : Option Nat)
    (h : pm_ipi_buff_read32 proc wantValue mem obs fuel =
      some (tr, status, valOut)) :
    status = pm_read mem (proc.ipi.buffer_base +
      IPI_BUFFER_TARGET_PMU_OFFSET + IPI_BUFFER_RESP_OFFSET) ∧
    valOut = (if wantValue then
      some (pm_read mem (proc.ipi.buffer_base +
        IPI_BUFFER_TARGET_PMU_OFFSET + IPI_BUFFER_RESP_OFFSET +
        PAYLOAD_ARG_SIZE))
    else none) ∧
    (∃ wtr rw rest, pm_ipi_wait proc obs fuel = some (wtr, rw) ∧
      tr = wtr ++ rest) ∧
    (wantValue = false → ∀ a, MEvent.readBuf a ∈ tr →
      a = proc.ipi.buffer_base + IPI_BUFFER_TARGET_PMU_OFFSET +
        IPI_BUFFER_RESP_OFFSET) := by
  unfold pm_ipi_buff_read32 at h
  rcases hw : pm_ipi_wait proc obs fuel with _ | wpair
  · rw [hw] at h
    exact absurd h (by simp)
  obtain ⟨wtr, rw0⟩ := wpair
  rw [hw] at h
  have htr : wtr ++
      (if wantValue then
        [MEvent.readBuf (proc.ipi.buffer_base +
          IPI_BUFFER_TARGET_PMU_OFFSET + IPI_BUFFER_RESP_OFFSET +
          PAYLOAD_ARG_SIZE)]
      else []) ++
      [MEvent.readBuf (proc.ipi.buffer_base +
        IPI_BUFFER_TARGET_PMU_OFFSET + IPI_BUFFER_RESP_OFFSET)] = tr :=
    congrArg Prod.fst (Option.some.inj h)
  have hst : pm_read mem (proc.ipi.buffer_base +
      IPI_BUFFER_TARGET_PMU_OFFSET + IPI_BUFFER_RESP_OFFSET) = status :=
    congrArg (fun x => x.2.1) (Option.some.inj h)
  have hvo : (if wantValue then
      some (pm_read mem (proc.ipi.buffer_base +
        IPI_BUFFER_TARGET_PMU_OFFSET + IPI_BUFFER_RESP_OFFSET +
        PAYLOAD_ARG_SIZE))
    else none) = valOut :=
    congrArg (fun x => x.2.2) (Option.some.inj h)
  refine ⟨hst.symm, hvo.symm,
    ⟨wtr, rw0,
      (if wantValue then
        [MEvent.readBuf (proc.ipi.buffer_base +
          IPI_BUFFER_TARGET_PMU_OFFSET + IPI_BUFFER_RESP_OFFSET +
          PAYLOAD_ARG_SIZE)]
      else []) ++
      [MEvent.readBuf (proc.ipi.buffer_base +
        IPI_BUFFER_TARGET_PMU_OFFSET + IPI_BUFFER_RESP_OFFSET)],
      rfl, by rw [← htr, List.append_assoc]⟩, ?_⟩
  intro hv a ha
  subst hv
  rw [← htr] at ha
  simp at ha
  rcases ha with ha1 | ha1
  · exact absurd rfl
      ((pm_ipi_wait_no_buf_access proc obs fuel wtr rw0 hw _ ha1).2 a)
  · exact ha1

/-- Witness for C5: a concrete NULL-pointer read on core 0 with all
response words equal to 42 returns status 42 and no value. -/
theorem pm_ipi_buff_read32_spec_witness :
    (42 : Nat) = pm_read (fun _ => 42) (IPI_BUFFER_APU_BASE +
      IPI_BUFFER_TARGET_PMU_OFFSET + IPI_BUFFER_RESP_OFFSET) ∧
    (none : Option Nat) = (if false then
      some (pm_read (fun _ => 42) (IPI_BUFFER_APU_BASE +
        IPI_BUFFER_TARGET_PMU_OFFSET + IPI_BUFFER_RESP_OFFSET +
        PAYLOAD_ARG_SIZE))
    else none) := by
  have h := pm_ipi_buff_read32_spec pm_apu_0_proc false (fun _ => 42)
    (fun _ => 0) 1
    [MEvent.acquire, MEvent.readObs (IPI_BASEADDR + IPI_OBS_OFFSET),
      MEvent.release,
      MEvent.readBuf (IPI_BUFFER_APU_BASE + IPI_BUFFER_TARGET_PMU_OFFSET +
        IPI_BUFFER_RESP_OFFSET)] 42 none (by decide)
  exact ⟨h.1, h.2.1⟩

/-- Projection of an interleaved two-core execution (each entry tagged with
the core that performed it) onto the events of one core. -/
def coreTrace (c : Bool) (m : List (Bool × MEvent)) : List MEvent :=
  (m.filter (fun e => e.1 == c)).map Prod.snd

/-- Lock semantics of an interleaved two-core execution, given which cores
currently hold the lock: a core may acquire only while the other core is
not holding; release frees the holder; every other event — in particular
every buffer read and write — is unrestricted by the lock. -/
def lockFreeFrom : List (Bool × MEvent) → Bool → Bool → Bool
  | [], _, _ => true
  | (c, MEvent.acquire) :: rest, hA, hB =>
    if c then (!hB) && lockFreeFrom rest true hB
    else (!hA) && lockFreeFrom rest hA true
  | (c, MEvent.release) :: rest, hA, hB =>
    if c then lockFreeFrom rest false hB else lockFreeFrom rest hA false
  | _ :: rest, hA, hB => lockFreeFrom rest hA hB

/-- An interleaved execution is admissible for the global lock when it
respects mutual exclusion starting from the lock free. -/
def lockValid (m : List (Bool × MEvent)) : Bool := lockFreeFrom m false false

/-- Whether an event writes the message buffer or trigger register. -/
def isBufWrite : MEvent → Bool
  | MEvent.writeBuf _ _ => true
  | _ => false

/-- Core tags of the buffer-write events of an interleaved execution, in
execution order. -/
def writeTags (m : List (Bool × MEvent)) : List Bool :=
  (m.filter (fun e => isBufWrite e.2)).map Prod.fst

/-- Number of switches between cores along a tag sequence.  If the lock
serialized the two cores' write phases, the write tags of any admissible
interleaving would switch cores at most once. -/
def alternations : List Bool → Nat
  | [] => 0
  | [_] => 0
  | a :: b :: t => (if a = b then 0 else 1) + alternations (b :: t)

/-- An admissible interleaving of two concurrent sends on the shared APU
channel: each core completes its locked wait section, then the twelve
payload-buffer writes of the two cores alternate word by word. -/
def interleaved_schedule : List (Bool × MEvent) :=
  [(true, MEvent.acquire),
   (true, MEvent.readObs (IPI_BASEADDR + IPI_OBS_OFFSET)),
   (true, MEvent.release),
   (false, MEvent.acquire),
   (false, MEvent.readObs (IPI_BASEADDR + IPI_OBS_OFFSET)),
   (false, MEvent.release),
   (true, MEvent.writeBuf (IPI_BUFFER_APU_BASE +
     IPI_BUFFER_TARGET_PMU_OFFSET + IPI_BUFFER_REQ_OFFSET +
     0 * PAYLOAD_ARG_SIZE) 1),
   (false, MEvent.writeBuf (IPI_BUFFER_APU_BASE +
     IPI_BUFFER_TARGET_PMU_OFFSET + IPI_BUFFER_REQ_OFFSET +
     0 * PAYLOAD_ARG_SIZE) 7),
   (true, MEvent.writeBuf (IPI_BUFFER_APU_BASE +
     IPI_BUFFER_TARGET_PMU_OFFSET + IPI_BUFFER_REQ_OFFSET +
     1 * PAYLOAD_ARG_SIZE) 2),
   (false, MEvent.writeBuf (IPI_BUFFER_APU_BASE +
     IPI_BUFFER_TARGET_PMU_OFFSET + IPI_BUFFER_REQ_OFFSET +
     1 * PAYLOAD_ARG_SIZE) 8),
   (true, MEvent.writeBuf (IPI_BUFFER_APU_BASE +
     IPI_BUFFER_TARGET_PMU_OFFSET + IPI_BUFFER_REQ_OFFSET +
     2 * PAYLOAD_ARG_SIZE) 3),
   (false, MEvent.writeBuf (IPI_BUFFER_APU_BASE +
     IPI_BUFFER_TARGET_PMU_OFFSET + IPI_BUFFER_REQ_OFFSET +
     2 * PAYLOAD_ARG_SIZE) 9),
   (true, MEvent.writeBuf (IPI_BUFFER_APU_BASE +
     IPI_BUFFER_TARGET_PMU_OFFSET + IPI_BUFFER_REQ_OFFSET +
     3 * PAYLOAD_ARG_SIZE) 4),
   (false, MEvent.writeBuf (IPI_BUFFER_APU_BASE +
     IPI_BUFFER_TARGET_PMU_OFFSET + IPI_BUFFER_REQ_OFFSET +
     3 * PAYLOAD_ARG_SIZE) 10),
   (true, MEvent.writeBuf (IPI_BUFFER_APU_BASE +
     IPI_BUFFER_TARGET_PMU_OFFSET + IPI_BUFFER_REQ_OFFSET +
     4 * PAYLOAD_ARG_SIZE) 5),
   (false, MEvent.writeBuf (IPI_BUFFER_APU_BASE +
     IPI_BUFFER_TARGET_PMU_OFFSET + IPI_BUFFER_REQ_OFFSET +
     4 * PAYLOAD_ARG_SIZE) 11),
   (true, MEvent.writeBuf (IPI_BUFFER_APU_BASE +
     IPI_BUFFER_TARGET_PMU_OFFSET + IPI_BUFFER_REQ_OFFSET +
     5 * PAYLOAD_ARG_SIZE) 6),
   (false, MEvent.writeBuf (IPI_BUFFER_APU_BASE +
     IPI_BUFFER_TARGET_PMU_OFFSET + IPI_BUFFER_REQ_OFFSET +
     5 * PAYLOAD_ARG_SIZE) 12),
   (true, MEvent.writeBuf (IPI_BASEADDR + IPI_TRIG_OFFSET)
     IPI_PMU_PM_INT_MASK),
   (false, MEvent.writeBuf (IPI_BASEADDR + IPI_TRIG_OFFSET)
     IPI_PMU_PM_INT_MASK)]

/-- C1: the claimed serialization fails on the code.  `pm_ipi_wait`
releases `pm_secure_lock` before returning, so in `pm_ipi_send` every
payload-buffer write happens outside the critical section.  Exhibited
here: two cores concurrently sending on the same channel each complete
their locked wait (both polls see the pending bit clear, as neither has
triggered yet), after which their twelve request-buffer writes interleave
word by word in a lock-admissible schedule — the write tags switch cores
eleven times, while serialized write phases would switch at most once. -/
theorem send_buffer_writes_can_interleave :
    pm_ipi_send pm_apu_0_proc [1, 2, 3, 4, 5, 6] (fun _ => 0) 1 =
      some (send_trace_a, PM_RET_SUCCESS) ∧
    pm_ipi_send pm_apu_1_proc [7, 8, 9, 10, 11, 12] (fun _ => 0) 1 =
      some (send_trace_b, PM_RET_SUCCESS) ∧
    coreTrace true interleaved_schedule = send_trace_a ∧
    coreTrace false interleaved_schedule = send_trace_b ∧
    lockValid interleaved_schedule = true ∧
    2 ≤ alternations (writeTags interleaved_schedule) := by
  exact ⟨by decide, by decide, by decide, by decide, by decide, by decide⟩

end PmClient
